import Mathlib

/-!
Shallow embedding of the OMR (optical mark recognition) pipeline of this
repository: bubble detection (`bubble_detection.rs`), answer evaluation
(`evaluation.rs`), template structures (`template.rs`) and the batch driver
(`lib.rs`).  Machine floats (`f64`) are modelled by `ℚ`, `u32`/`usize` by `ℕ`,
`u8` pixel intensities by `Fin 256`, `Vec` by `List`, `HashMap` lookups by
functions into `Option`, and Rust `Result` by `Except String`.  Wall-clock
fields (`processing_time`, `evaluation_time`) and file-system paths are out of
the embedding; `file_path` is kept as a `String`.
-/

namespace Omr

/-- Grayscale image (`ImageBuffer<Luma<u8>, Vec<u8>>`): dimensions plus a
pixel lookup.  `pix x y` is the intensity at column `x`, row `y`. -/
structure ImageGray where
  width : ℕ
  height : ℕ
  pix : ℕ → ℕ → Fin 256

/-- The pixel intensities of an image in the iteration order of
`ImageBuffer::pixels` (row-major: `y` outer, `x` inner). -/
def ImageGray.pixelVals (img : ImageGray) : List ℕ :=
  (List.range img.height).flatMap fun y =>
    (List.range img.width).map fun x => (img.pix x y).val

/-- `BubbleDimensions` from `config.rs`. -/
structure BubbleDimensions where
  width : ℕ
  height : ℕ

/-- `BubbleLocation` from `template.rs`: position relative to the field
block's origin plus the value the bubble represents. -/
structure BubbleLocation where
  position : ℕ × ℕ
  value : String

/-- `FieldType` from `template.rs`. -/
inductive FieldType where
  | MultipleChoice
  | SingleChoice
  | Integer
  | RollNumber
deriving DecidableEq

/-- `FieldBlock` from `template.rs`. -/
structure FieldBlock where
  field_label : String
  field_type : FieldType
  origin : ℕ × ℕ
  bubbles : List BubbleLocation
  labels : List String

/-- `ScoreVariant` from `template.rs`: per-field scoring override. -/
structure ScoreVariant where
  correct : ℚ
  incorrect : ℚ
  unmarked : ℚ

/-- `OmrTemplate` from `template.rs` (pre-processors, custom labels and
output columns are carried by the source struct but unused by detection
and evaluation, so they are not embedded). -/
structure OmrTemplate where
  bubble_dimensions : BubbleDimensions
  page_dimensions : ℕ × ℕ
  field_blocks : List FieldBlock
  empty_value : String

/-- `OmrTemplate::get_field_block`: first field block with the given label. -/
def OmrTemplate.get_field_block (t : OmrTemplate) (label : String) : Option FieldBlock :=
  t.field_blocks.find? fun block => block.field_label == label

/-- `OmrTemplate::is_multi_choice_field`: true when the labelled block exists
and its type is `MultipleChoice`; false for an unknown label. -/
def OmrTemplate.is_multi_choice_field (t : OmrTemplate) (label : String) : Bool :=
  match t.get_field_block label with
  | some field_block => decide (field_block.field_type = FieldType.MultipleChoice)
  | none => false

/-- `BubbleResponse` from `lib.rs`. -/
structure BubbleResponse where
  field_label : String
  detected_values : List String
  confidence : ℚ
  is_multi_marked : Bool

/-- `ProcessedFile` from `lib.rs` (minus the wall-clock field). -/
structure ProcessedFile where
  file_path : String
  detected_bubbles : List BubbleResponse
  confidence_score : ℚ
  alignment_applied : Bool

/-- `ScoringConfig` from `evaluation.rs`; the `custom_variants` hash map is
embedded as a lookup function. -/
structure ScoringConfig where
  default_correct : ℚ
  default_incorrect : ℚ
  default_unmarked : ℚ
  custom_variants : String → Option ScoreVariant

/-- `EvaluationResult` from `evaluation.rs`. -/
structure EvaluationResult where
  field_label : String
  detected_values : List String
  correct_answers : List String
  is_correct : Bool
  score : ℚ
  confidence : ℚ
  feedback : String

/-- `EvaluationReport` from `evaluation.rs` (minus the wall-clock field). -/
structure EvaluationReport where
  file_path : String
  total_score : ℚ
  max_possible_score : ℚ
  percentage : ℚ
  field_results : List EvaluationResult
  multi_marked_fields : List String

/-- `EvaluationEngine::calculate_score`: pick the score for one field using
the per-field `ScoreVariant` override when present, else the global defaults;
multi-marked before empty before correct before incorrect. -/
def calculate_score (cfg : ScoringConfig) (field_label : String)
    (detected_values : List String) (_correct_answers : List String)
    (is_correct : Bool) (is_multi_marked : Bool) : ℚ :=
  let score_variant := cfg.custom_variants field_label
  if is_multi_marked then
    (score_variant.map ScoreVariant.incorrect).getD cfg.default_incorrect
  else if detected_values.isEmpty then
    (score_variant.map ScoreVariant.unmarked).getD cfg.default_unmarked
  else if is_correct then
    (score_variant.map ScoreVariant.correct).getD cfg.default_correct
  else
    (score_variant.map ScoreVariant.incorrect).getD cfg.default_incorrect

/-- `EvaluationEngine::generate_feedback`. -/
def generate_feedback (detected_values correct_answers : List String)
    (is_correct is_multi_marked : Bool) : String :=
  if is_multi_marked then
    "Multi-marked: " ++ String.intercalate ", " detected_values ++
      " (Correct: " ++ String.intercalate ", " correct_answers ++ ")"
  else if detected_values.isEmpty then
    if correct_answers.isEmpty then "Correctly left blank"
    else "Left blank (Correct: " ++ String.intercalate ", " correct_answers ++ ")"
  else if is_correct then
    "Correct: " ++ String.intercalate ", " detected_values
  else
    "Incorrect: " ++ String.intercalate ", " detected_values ++
      " (Correct: " ++ String.intercalate ", " correct_answers ++ ")"

/-- `EvaluationEngine::evaluate_single_field`: fetch the expected answers
(empty when the label is absent from the key), decide correctness
(multi-marked → false; empty detection → expected also empty; otherwise
mutual containment), then score. -/
def evaluate_single_field (cfg : ScoringConfig) (bubble_response : BubbleResponse)
    (answer_key : String → Option (List String)) : EvaluationResult :=
  let field_label := bubble_response.field_label
  let detected_values := bubble_response.detected_values
  let correct_answers := (answer_key field_label).getD []
  let is_correct :=
    if bubble_response.is_multi_marked then false
    else if detected_values.isEmpty then correct_answers.isEmpty
    else detected_values.all (fun val => correct_answers.contains val) &&
         correct_answers.all (fun val => detected_values.contains val)
  let score := calculate_score cfg field_label detected_values correct_answers
    is_correct bubble_response.is_multi_marked
  { field_label := field_label
    detected_values := detected_values
    correct_answers := correct_answers
    is_correct := is_correct
    score := score
    confidence := bubble_response.confidence
    feedback := generate_feedback detected_values correct_answers is_correct
      bubble_response.is_multi_marked }

/-- `EvaluationEngine::evaluate_responses`: per-response evaluation, running
total score, max possible accumulated as one `default_correct` per response,
multi-marked labels collected, percentage clamped at 0 (0 when the maximum is
not positive). -/
def evaluate_responses (cfg : ScoringConfig) (processed_file : ProcessedFile)
    (answer_key : String → Option (List String)) : EvaluationReport :=
  let field_results := processed_file.detected_bubbles.map fun r =>
    evaluate_single_field cfg r answer_key
  let total_score := (field_results.map EvaluationResult.score).sum
  let max_possible_score :=
    (processed_file.detected_bubbles.map fun _ => cfg.default_correct).sum
  let multi_marked_fields :=
    (processed_file.detected_bubbles.filter fun r => r.is_multi_marked).map
      BubbleResponse.field_label
  let percentage :=
    if 0 < max_possible_score then max (total_score / max_possible_score * 100) 0
    else 0
  { file_path := processed_file.file_path
    total_score := total_score
    max_possible_score := max_possible_score
    percentage := percentage
    field_results := field_results
    multi_marked_fields := multi_marked_fields }

/-- `BubbleDetector::analyze_bubble_marking`: a zero-area region scores 0;
otherwise the confidence is `darknessRatio·0.7 + intensityConfidence·0.3`
capped at 1, where a pixel is dark when its intensity is strictly below 128
and `intensityConfidence = (255 − meanIntensity)/255`. -/
def analyze_bubble_marking (bubble_region : ImageGray) : ℚ :=
  if bubble_region.width = 0 ∨ bubble_region.height = 0 then 0
  else
    let total_pixels : ℚ := ((bubble_region.width * bubble_region.height : ℕ) : ℚ)
    let vals := bubble_region.pixelVals
    let dark_pixels : ℕ := (vals.filter fun v => decide (v < 128)).length
    let total_intensity : ℕ := vals.sum
    let dark_frac : ℚ := (dark_pixels : ℚ) / total_pixels
    let avg_intensity : ℚ := (total_intensity : ℚ) / total_pixels
    let intensity_confidence : ℚ := (255 - avg_intensity) / 255
    min (dark_frac * (7/10) + intensity_confidence * (3/10)) 1

/-- The dark-pixel ratio of a region, as the spec words it: the fraction of
pixels with intensity strictly below 128. -/
def darkFraction (region : ImageGray) : ℚ :=
  ((region.pixelVals.filter fun v => decide (v < 128)).length : ℚ) /
    ((region.width * region.height : ℕ) : ℚ)

/-- The arithmetic mean intensity of a region, as the spec words it. -/
def meanIntensity (region : ImageGray) : ℚ :=
  (region.pixelVals.sum : ℚ) / ((region.width * region.height : ℕ) : ℚ)

/-- `BubbleDetector::extract_bubble_region`: absolute position = field origin
+ bubble offset; start coordinates clamped by `min` against the saturating
difference `image_size − bubble_size`; end coordinates clamped to the image
bounds; pixels copied through a checked lookup (zero where the source pixel
would be out of bounds, matching the zero-initialised buffer). -/
def extract_bubble_region (image : ImageGray) (field_block : FieldBlock)
    (bubble : BubbleLocation) (template : OmrTemplate) : ImageGray :=
  let img_width := image.width
  let img_height := image.height
  let bubble_width := template.bubble_dimensions.width
  let bubble_height := template.bubble_dimensions.height
  let abs_x := field_block.origin.1 + bubble.position.1
  let abs_y := field_block.origin.2 + bubble.position.2
  let start_x := min abs_x (img_width - bubble_width)
  let start_y := min abs_y (img_height - bubble_height)
  let end_x := min (start_x + bubble_width) img_width
  let end_y := min (start_y + bubble_height) img_height
  { width := end_x - start_x
    height := end_y - start_y
    pix := fun x y =>
      if start_x + x < img_width ∧ start_y + y < img_height then
        image.pix (start_x + x) (start_y + y)
      else 0 }

/-- The mark-confidence the detector assigns to one bubble of a field block:
extract, then analyze. -/
def bubble_confidence (image : ImageGray) (field_block : FieldBlock)
    (bubble : BubbleLocation) (template : OmrTemplate) : ℚ :=
  analyze_bubble_marking (extract_bubble_region image field_block bubble template)

/-- The single `BubbleResponse` that `BubbleDetector::process_field_block`
pushes for a field block: detected values are the values of the bubbles whose
confidence exceeds 0.6 in bubble order, the field confidence is the mean of
all bubble confidences (0 when there are none), and the multi-mark flag is set
when more than one bubble is detected and the field is not declared
multiple-choice. -/
def field_block_response (image : ImageGray) (field_block : FieldBlock)
    (template : OmrTemplate) : BubbleResponse :=
  let confidences := field_block.bubbles.map fun bubble =>
    bubble_confidence image field_block bubble template
  let detected_values :=
    (field_block.bubbles.filter fun bubble =>
      decide ((0.6 : ℚ) < bubble_confidence image field_block bubble template)).map
      BubbleLocation.value
  let avg_confidence : ℚ :=
    if confidences.isEmpty then 0 else confidences.sum / (confidences.length : ℚ)
  let is_multi_marked :=
    decide (1 < detected_values.length) &&
      !(template.is_multi_choice_field field_block.field_label)
  { field_label := field_block.field_label
    detected_values := detected_values
    confidence := avg_confidence
    is_multi_marked := is_multi_marked }

/-- `BubbleDetector::process_field_block` returns its one response as a
one-element vector. -/
def process_field_block (image : ImageGray) (field_block : FieldBlock)
    (template : OmrTemplate) : List BubbleResponse :=
  [field_block_response image field_block template]

/-- `BubbleDetector::detect_bubbles_with_template`: map `process_field_block`
over the template's field blocks (the source's order-preserving parallel
collect) and flatten the per-block response vectors. -/
def detect_bubbles_with_template (image : ImageGray) (template : OmrTemplate) :
    List BubbleResponse :=
  (template.field_blocks.map fun field_block =>
    process_field_block image field_block template).flatten

/-- `BubbleRegion` from `bubble_detection.rs`: accumulated pixel list with a
running bounding box. -/
structure BubbleRegion where
  pixels : List (ℕ × ℕ)
  min_x : ℕ
  max_x : ℕ
  min_y : ℕ
  max_y : ℕ

/-- `BubbleRegion::new` (`u32::MAX` for the running minima). -/
def BubbleRegion.new : BubbleRegion :=
  { pixels := [], min_x := 4294967295, max_x := 0, min_y := 4294967295, max_y := 0 }

/-- `BubbleRegion::add_pixel`. -/
def BubbleRegion.add_pixel (r : BubbleRegion) (x y : ℕ) : BubbleRegion :=
  { pixels := r.pixels ++ [(x, y)]
    min_x := min r.min_x x
    max_x := max r.max_x x
    min_y := min r.min_y y
    max_y := max r.max_y y }

/-- `BubbleRegion::is_likely_bubble`: width and height are the saturating
bounding-box differences, area is the pixel count; the filter keeps
`area > 20 && area < 2000 && width > 5 && height > 5 && width < 100 &&
height < 100`. -/
def BubbleRegion.is_likely_bubble (r : BubbleRegion) : Bool :=
  let width := r.max_x - r.min_x
  let height := r.max_y - r.min_y
  let area := r.pixels.length
  decide (20 < area) && decide (area < 2000) && decide (5 < width) &&
    decide (5 < height) && decide (width < 100) && decide (height < 100)

/-- The filtering step of `BubbleDetector::find_bubble_regions` (lines
198–203): keep exactly the regions passing `is_likely_bubble`. -/
def filter_likely_bubbles (regions : List BubbleRegion) : List BubbleRegion :=
  regions.filter BubbleRegion.is_likely_bubble

/-- The 256-bin intensity histogram built at the top of
`BubbleDetector::calculate_otsu_threshold`. -/
def histogramOf (image : ImageGray) : ℕ → ℕ :=
  fun i => image.pixelVals.count i

/-- `BubbleDetector::calculate_class_stats`: raw class weight and intensity
sum below the threshold, the complementary weight as `total_pixels − w0`, the
class means (0 for an empty class), and the weights normalised by
`total_pixels`.  Returned as `(w0, w1, μ0, μ1)`. -/
def calculate_class_stats (histogram : ℕ → ℕ) (threshold : ℕ)
    (total_pixels : ℚ) : ℚ × ℚ × ℚ × ℚ :=
  let w0 : ℚ := ∑ i ∈ Finset.range threshold, (histogram i : ℚ)
  let sum0 : ℚ := ∑ i ∈ Finset.range threshold, (i : ℚ) * (histogram i : ℚ)
  let w1 : ℚ := total_pixels - w0
  let sum1 : ℚ := ∑ i ∈ Finset.Ico threshold 256, (i : ℚ) * (histogram i : ℚ)
  let mu0 : ℚ := if 0 < w0 then sum0 / w0 else 0
  let mu1 : ℚ := if 0 < w1 then sum1 / w1 else 0
  (w0 / total_pixels, w1 / total_pixels, mu0, mu1)

/-- The between-class variance `w0·w1·(μ0−μ1)²` a candidate threshold is
scored by, from the statistics of `calculate_class_stats`. -/
def otsu_variance (histogram : ℕ → ℕ) (total_pixels : ℚ) (threshold : ℕ) : ℚ :=
  let s := calculate_class_stats histogram threshold total_pixels
  s.1 * s.2.1 * (s.2.2.1 - s.2.2.2) ^ 2

/-- One iteration of the threshold loop in
`BubbleDetector::calculate_otsu_threshold`: the state is
`(best_threshold, max_variance)`; a candidate replaces it only when both
classes are non-empty (`w0 > 0 && w1 > 0`) and its variance strictly exceeds
the running maximum. -/
def otsu_step (histogram : ℕ → ℕ) (total_pixels : ℚ) (s : ℕ × ℚ)
    (threshold : ℕ) : ℕ × ℚ :=
  let stats := calculate_class_stats histogram threshold total_pixels
  if 0 < stats.1 ∧ 0 < stats.2.1 then
    let variance := stats.1 * stats.2.1 * (stats.2.2.1 - stats.2.2.2) ^ 2
    if s.2 < variance then (threshold, variance) else s
  else s

/-- `BubbleDetector::calculate_otsu_threshold`: fold the threshold loop over
the candidates `0..256` starting from `(0, 0.0)` and return the best
threshold. -/
def calculate_otsu_threshold (image : ImageGray) : ℕ :=
  let histogram := histogramOf image
  let total_pixels : ℚ := ((image.width * image.height : ℕ) : ℚ)
  ((List.range 256).foldl (otsu_step histogram total_pixels) (0, 0)).1

/-- `OmrResult` from `lib.rs` (minus the wall-clock field). -/
structure OmrResult where
  success : Bool
  message : String
  processed_files : List ProcessedFile
  errors : List String

/-- Rust's `collect::<Result<Vec<_>>>()` over per-file outcomes: the first
error in order short-circuits; otherwise all payloads are collected in
order. -/
def collect_results {ε α : Type} : List (Except ε α) → Except ε (List α)
  | [] => Except.ok []
  | Except.ok a :: rest => (collect_results rest).map fun l => a :: l
  | Except.error e :: _ => Except.error e

/-- The per-file phase of `OmrConfig::execute` (lib.rs lines 101–135), given
the outcome of `process_single_file` for each discovered image: an empty
discovery yields the unsuccessful result with the `"No input files found"`
error entry; otherwise the parallel collect is propagated with `?`, so its
value is either the first per-file error or the successful `OmrResult`, whose
error list is always empty. -/
def execute_core (file_outcomes : List (Except String ProcessedFile)) :
    Except String OmrResult :=
  if file_outcomes.isEmpty then
    Except.ok
      { success := false
        message := "No image files found in input directories"
        processed_files := []
        errors := ["No input files found"] }
  else
    match collect_results file_outcomes with
    | Except.error e => Except.error e
    | Except.ok processed_files =>
        Except.ok
          { success := true
            message := "Successfully processed files"
            processed_files := processed_files
            errors := [] }

/-! ### Concrete inputs used by witness theorems -/

/-- The source's `ScoringConfig::default`: correct 1.0, incorrect −0.25,
unmarked 0.0, no custom variants. -/
def defaultScoringConfig : ScoringConfig :=
  { default_correct := 1
    default_incorrect := -(1/4)
    default_unmarked := 0
    custom_variants := fun _ => none }

/-- A sample response: field `Q1` detected `A`, not multi-marked. -/
def sampleResponse : BubbleResponse :=
  { field_label := "Q1", detected_values := ["A"], confidence := 1,
    is_multi_marked := false }

/-- A sample answer key mapping `Q1` to `["A"]`. -/
def sampleKey : String → Option (List String) :=
  fun label => if label = "Q1" then some ["A"] else none

/-- A sample processed file with no detected bubbles. -/
def emptyProcessedFile : ProcessedFile :=
  { file_path := "sheet.png", detected_bubbles := [], confidence_score := 0,
    alignment_applied := false }

/-! ### C1 -/

/-- C1: `evaluate_single_field` decides correctness in precedence order:
a multi-marked response is incorrect; an empty detection is correct exactly
when the expected list (empty for a field absent from the key) is empty;
otherwise correctness is mutual containment of the detected and expected
values, i.e. equality of the two value sets, order-insensitively and
ignoring duplicates. -/
theorem evaluate_single_field_correctness (cfg : ScoringConfig)
    (r : BubbleResponse) (answer_key : String → Option (List String)) :
    (answer_key r.field_label = none →
      (evaluate_single_field cfg r answer_key).correct_answers = []) ∧
    (r.is_multi_marked = true →
      (evaluate_single_field cfg r answer_key).is_correct = false) ∧
    (r.is_multi_marked = false → r.detected_values = [] →
      ((evaluate_single_field cfg r answer_key).is_correct = true ↔
        (answer_key r.field_label).getD [] = [])) ∧
    (r.is_multi_marked = false → r.detected_values ≠ [] →
      (((evaluate_single_field cfg r answer_key).is_correct = true ↔
          ((∀ v ∈ r.detected_values, v ∈ (answer_key r.field_label).getD []) ∧
           (∀ v ∈ (answer_key r.field_label).getD [], v ∈ r.detected_values))) ∧
       ((evaluate_single_field cfg r answer_key).is_correct = true ↔
          r.detected_values.toFinset =
            ((answer_key r.field_label).getD []).toFinset))) := by
  refine ⟨?_, ?_, ?_, ?_⟩
  · intro h
    simp [evaluate_single_field, h]
  · intro h
    simp [evaluate_single_field, h]
  · intro h hd
    simp [evaluate_single_field, h, hd, List.isEmpty_iff]
  · intro h hd
    have hmut : (evaluate_single_field cfg r answer_key).is_correct = true ↔
        ((∀ v ∈ r.detected_values, v ∈ (answer_key r.field_label).getD []) ∧
         (∀ v ∈ (answer_key r.field_label).getD [], v ∈ r.detected_values)) := by
      simp [evaluate_single_field, h, List.isEmpty_iff, hd]
    refine ⟨hmut, hmut.trans ?_⟩
    constructor
    · intro ⟨h1, h2⟩
      ext a
      simp only [List.mem_toFinset]
      exact ⟨fun ha => h1 a ha, fun ha => h2 a ha⟩
    · intro hset
      constructor
      · intro v hv
        have := hset ▸ (List.mem_toFinset.mpr hv)
        exact List.mem_toFinset.mp this
      · intro v hv
        have := hset ▸ (List.mem_toFinset.mpr hv)
        exact List.mem_toFinset.mp this

/-- C1 witness: a single detected value matching the key's single expected
value is judged correct. -/
theorem evaluate_single_field_correctness_witness :
    (evaluate_single_field defaultScoringConfig sampleResponse sampleKey).is_correct
      = true := by
  have h := (evaluate_single_field_correctness defaultScoringConfig sampleResponse
    sampleKey).2.2.2 (by rfl) (by simp [sampleResponse])
  exact h.1.mpr (by simp [sampleResponse, sampleKey])

/-! ### C2 -/

/-- C2: `calculate_score` uses the per-field `ScoreVariant` override when one
exists and the global defaults otherwise, with precedence multi-marked →
incorrect score, else empty detection → unmarked score, else correct →
correct score, else incorrect score; a multi-marked field scores incorrect
regardless of `is_correct`. -/
theorem calculate_score_cases (cfg : ScoringConfig) (field_label : String)
    (detected_values correct_answers : List String)
    (is_correct is_multi_marked : Bool) :
    (is_multi_marked = true →
      calculate_score cfg field_label detected_values correct_answers
          is_correct is_multi_marked =
        ((cfg.custom_variants field_label).map ScoreVariant.incorrect).getD
          cfg.default_incorrect) ∧
    (is_multi_marked = false → detected_values = [] →
      calculate_score cfg field_label detected_values correct_answers
          is_correct is_multi_marked =
        ((cfg.custom_variants field_label).map ScoreVariant.unmarked).getD
          cfg.default_unmarked) ∧
    (is_multi_marked = false → detected_values ≠ [] → is_correct = true →
      calculate_score cfg field_label detected_values correct_answers
          is_correct is_multi_marked =
        ((cfg.custom_variants field_label).map ScoreVariant.correct).getD
          cfg.default_correct) ∧
    (is_multi_marked = false → detected_values ≠ [] → is_correct = false →
      calculate_score cfg field_label detected_values correct_answers
          is_correct is_multi_marked =
        ((cfg.custom_variants field_label).map ScoreVariant.incorrect).getD
          cfg.default_incorrect) := by
  refine ⟨?_, ?_, ?_, ?_⟩
  · intro h
    simp [calculate_score, h]
  · intro h hd
    simp [calculate_score, h, hd]
  · intro h hd hc
    simp [calculate_score, h, hc, List.isEmpty_iff, hd]
  · intro h hd hc
    simp [calculate_score, h, hc, List.isEmpty_iff, hd]

/-- C2 witness: a multi-marked response whose values would otherwise be
correct still receives the default incorrect score. -/
theorem calculate_score_cases_witness :
    calculate_score defaultScoringConfig "Q1" ["A", "B"] ["A", "B"] true true =
      defaultScoringConfig.default_incorrect :=
  (calculate_score_cases defaultScoringConfig "Q1" ["A", "B"] ["A", "B"]
    true true).1 rfl

/-! ### C6 -/

/-- Sum of a constant-valued map over a list. -/
theorem sum_map_const_eq {α : Type} (l : List α) (c : ℚ) :
    (l.map fun _ => c).sum = c * l.length := by
  induction l with
  | nil => simp
  | cons a t ih =>
      simp [ih]
      ring

/-- C6: the report's total score is the sum of the per-field scores; the
maximum possible score is the global default correct value times the number
of responses, unaffected by any per-field `ScoreVariant` override; the
percentage is `max 0 (total/max · 100)` and is 0 when the maximum is 0
(the default correct value is nonnegative, as in every shipped
configuration). -/
theorem evaluate_responses_aggregate (cfg : ScoringConfig)
    (pf : ProcessedFile) (answer_key : String → Option (List String))
    (hc : 0 ≤ cfg.default_correct) :
    ((evaluate_responses cfg pf answer_key).total_score =
      (pf.detected_bubbles.map fun r =>
        (evaluate_single_field cfg r answer_key).score).sum) ∧
    ((evaluate_responses cfg pf answer_key).max_possible_score =
      cfg.default_correct * pf.detected_bubbles.length) ∧
    (∀ cv : String → Option ScoreVariant,
      (evaluate_responses { cfg with custom_variants := cv } pf
          answer_key).max_possible_score =
        cfg.default_correct * pf.detected_bubbles.length) ∧
    ((evaluate_responses cfg pf answer_key).max_possible_score = 0 →
      (evaluate_responses cfg pf answer_key).percentage = 0) ∧
    ((evaluate_responses cfg pf answer_key).max_possible_score ≠ 0 →
      (evaluate_responses cfg pf answer_key).percentage =
        max 0 ((evaluate_responses cfg pf answer_key).total_score /
          (evaluate_responses cfg pf answer_key).max_possible_score * 100)) := by
  have hmax : (evaluate_responses cfg pf answer_key).max_possible_score =
      cfg.default_correct * pf.detected_bubbles.length := by
    simp [evaluate_responses, sum_map_const_eq]
    ring
  refine ⟨?_, hmax, ?_, ?_, ?_⟩
  · simp [evaluate_responses, List.map_map, Function.comp_def]
  · intro cv
    simp [evaluate_responses, sum_map_const_eq]
    ring
  · intro h0
    simp only [evaluate_responses] at h0 ⊢
    rw [if_neg]
    rw [h0]
    simp
  · intro hne
    have hpos : 0 < (evaluate_responses cfg pf answer_key).max_possible_score := by
      rcases lt_or_eq_of_le (by positivity : (0:ℚ) ≤
          cfg.default_correct * pf.detected_bubbles.length) with h | h
      · exact hmax ▸ h
      · exact absurd (hmax.trans h.symm) hne
    simp only [evaluate_responses] at hpos ⊢
    rw [if_pos hpos, max_comm]

/-- C6 witness: with the default configuration and a file producing no
responses, the maximum possible score is 0 and the percentage is 0. -/
theorem evaluate_responses_aggregate_witness :
    (0:ℚ) ≤ defaultScoringConfig.default_correct ∧
    (evaluate_responses defaultScoringConfig emptyProcessedFile
      sampleKey).percentage = 0 :=
  ⟨by norm_num [defaultScoringConfig],
    (evaluate_responses_aggregate defaultScoringConfig emptyProcessedFile sampleKey
      (by norm_num [defaultScoringConfig])).2.2.2.1
      (by simp [evaluate_responses, emptyProcessedFile])⟩

/-! ### Pixel-list helper lemmas -/

/-- Length of a flat map whose inner lists all have `w` entries. -/
theorem length_flatMap_range {α : Type} (l : List α) (w : ℕ) (f : α → ℕ → ℕ) :
    (l.flatMap fun y => (List.range w).map (f y)).length = l.length * w := by
  induction l with
  | nil => simp
  | cons a t ih => simp [ih, Nat.succ_mul, Nat.add_comm]

/-- The pixel list of an image has exactly `width · height` entries. -/
theorem pixelVals_length (img : ImageGray) :
    img.pixelVals.length = img.width * img.height := by
  unfold ImageGray.pixelVals
  rw [length_flatMap_range (List.range img.height) img.width
    (fun y x => (img.pix x y).val)]
  simp [Nat.mul_comm]

/-- A pointwise property of the pixels transfers to every entry of the pixel
list. -/
theorem pixelVals_all {img : ImageGray} {P : ℕ → Prop}
    (h : ∀ x y, x < img.width → y < img.height → P (img.pix x y).val) :
    ∀ v ∈ img.pixelVals, P v := by
  intro v hv
  simp only [ImageGray.pixelVals, List.mem_flatMap, List.mem_map,
    List.mem_range] at hv
  obtain ⟨y, hy, x, hx, rfl⟩ := hv
  exact h x y hx hy

/-- Every entry of the pixel list is a `u8` value, hence at most 255. -/
theorem pixelVals_le_255 (img : ImageGray) : ∀ v ∈ img.pixelVals, v ≤ 255 :=
  pixelVals_all fun x y _ _ => Nat.lt_succ_iff.mp (img.pix x y).isLt

/-! ### C4 -/

/-- C4: the mark-confidence of an extracted region equals
`0.7·darkFraction + 0.3·(1 − meanIntensity/255)` capped at 1 (`darkFraction`
being the fraction of pixels strictly below intensity 128); it always lies in
`[0, 1]`; a zero-area region scores exactly 0; an all-black region scores
exactly 1; an all-white region scores exactly 0. -/
theorem analyze_bubble_marking_spec (region : ImageGray) :
    (0 ≤ analyze_bubble_marking region ∧ analyze_bubble_marking region ≤ 1) ∧
    (region.width = 0 ∨ region.height = 0 → analyze_bubble_marking region = 0) ∧
    (0 < region.width → 0 < region.height →
      analyze_bubble_marking region =
        min ((7/10) * darkFraction region +
          (3/10) * (1 - meanIntensity region / 255)) 1) ∧
    (0 < region.width → 0 < region.height →
      (∀ x y, x < region.width → y < region.height → region.pix x y = 0) →
      analyze_bubble_marking region = 1) ∧
    (0 < region.width → 0 < region.height →
      (∀ x y, x < region.width → y < region.height → region.pix x y = 255) →
      analyze_bubble_marking region = 0) := by
  by_cases hzero : region.width = 0 ∨ region.height = 0
  · have h0 : analyze_bubble_marking region = 0 := by
      simp [analyze_bubble_marking, hzero]
    refine ⟨⟨by rw [h0], by rw [h0]; norm_num⟩, fun _ => h0, ?_, ?_, ?_⟩ <;>
      · intro hw hh
        exact absurd hzero (by omega)
  · push_neg at hzero
    have hw : 0 < region.width := Nat.pos_of_ne_zero hzero.1
    have hh : 0 < region.height := Nat.pos_of_ne_zero hzero.2
    have htot : (0:ℚ) < ((region.width * region.height : ℕ) : ℚ) := by
      exact_mod_cast Nat.mul_pos hw hh
    have hlen : (region.pixelVals.length : ℚ) =
        ((region.width * region.height : ℕ) : ℚ) := by
      exact_mod_cast congrArg Nat.cast (pixelVals_length region)
    have hval : analyze_bubble_marking region =
        min ((((region.pixelVals.filter fun v => decide (v < 128)).length : ℚ) /
            ((region.width * region.height : ℕ) : ℚ)) * (7/10) +
          ((255 - (region.pixelVals.sum : ℚ) /
            ((region.width * region.height : ℕ) : ℚ)) / 255) * (3/10)) 1 := by
      simp [analyze_bubble_marking, hzero.1, hzero.2]
    have hdark_le : ((region.pixelVals.filter fun v => decide (v < 128)).length : ℚ) ≤
        ((region.width * region.height : ℕ) : ℚ) := by
      rw [← hlen]
      exact_mod_cast List.length_filter_le _ _
    have hsum_le : (region.pixelVals.sum : ℚ) ≤
        255 * ((region.width * region.height : ℕ) : ℚ) := by
      have hn : region.pixelVals.sum ≤ region.pixelVals.length * 255 := by
        have := List.sum_le_card_nsmul region.pixelVals 255 (pixelVals_le_255 region)
        simpa [smul_eq_mul] using this
      calc (region.pixelVals.sum : ℚ) ≤ (region.pixelVals.length : ℚ) * 255 := by
            exact_mod_cast hn
        _ = 255 * ((region.width * region.height : ℕ) : ℚ) := by
            rw [hlen]; ring
    have havg0 : (0:ℚ) ≤ (region.pixelVals.sum : ℚ) /
        ((region.width * region.height : ℕ) : ℚ) :=
      div_nonneg (by positivity) (le_of_lt htot)
    have havg255 : (region.pixelVals.sum : ℚ) /
        ((region.width * region.height : ℕ) : ℚ) ≤ 255 :=
      (div_le_iff₀ htot).mpr hsum_le
    have hdr0 : (0:ℚ) ≤
        ((region.pixelVals.filter fun v => decide (v < 128)).length : ℚ) /
          ((region.width * region.height : ℕ) : ℚ) :=
      div_nonneg (by positivity) (le_of_lt htot)
    have hdr1 : ((region.pixelVals.filter fun v => decide (v < 128)).length : ℚ) /
        ((region.width * region.height : ℕ) : ℚ) ≤ 1 :=
      (div_le_one htot).mpr hdark_le
    refine ⟨⟨?_, ?_⟩, fun hz => absurd hz (by omega), fun _ _ => ?_, fun _ _ hb => ?_,
      fun _ _ hb => ?_⟩
    · rw [hval]
      refine le_min (add_nonneg ?_ ?_) (by norm_num)
      · exact mul_nonneg hdr0 (by norm_num)
      · refine mul_nonneg (div_nonneg ?_ (by norm_num)) (by norm_num)
        linarith
    · rw [hval]
      exact min_le_right _ _
    · rw [hval]
      unfold darkFraction meanIntensity
      congr 1
      ring
    · -- all pixels at intensity 0
      have hall : ∀ v ∈ region.pixelVals, v = 0 :=
        pixelVals_all fun x y hx hy => by rw [hb x y hx hy]; rfl
      have hfilter : region.pixelVals.filter (fun v => decide (v < 128)) =
          region.pixelVals :=
        List.filter_eq_self.mpr fun v hv => by
          rw [hall v hv]; decide
      have hsum : region.pixelVals.sum = 0 :=
        List.sum_eq_zero fun v hv => hall v hv
      rw [hval, hfilter, hlen, hsum, div_self (ne_of_gt htot)]
      norm_num
    · -- all pixels at intensity 255
      have hall : ∀ v ∈ region.pixelVals, v = 255 :=
        pixelVals_all fun x y hx hy => by rw [hb x y hx hy]; rfl
      have hfilter : region.pixelVals.filter (fun v => decide (v < 128)) = [] := by
        rw [List.filter_eq_nil_iff]
        intro v hv
        rw [hall v hv]
        decide
      have hrep : region.pixelVals = List.replicate region.pixelVals.length 255 :=
        List.eq_replicate_of_mem hall
      have hn : region.pixelVals.sum = region.pixelVals.length * 255 := by
        rw [hrep]
        simp [List.sum_replicate, smul_eq_mul]
      have hsum : (region.pixelVals.sum : ℚ) =
          255 * ((region.width * region.height : ℕ) : ℚ) := by
        calc (region.pixelVals.sum : ℚ) = (region.pixelVals.length : ℚ) * 255 := by
              exact_mod_cast hn
          _ = 255 * ((region.width * region.height : ℕ) : ℚ) := by rw [hlen]; ring
      rw [hval, hfilter, hsum, mul_div_assoc, div_self (ne_of_gt htot)]
      norm_num [min_def]

/-- A 1×1 image every pixel of which is fully black. -/
def blackUnitImage : ImageGray :=
  { width := 1, height := 1, pix := fun _ _ => 0 }

/-- C4 witness: the fully black unit region has confidence exactly 1. -/
theorem analyze_bubble_marking_spec_witness :
    analyze_bubble_marking blackUnitImage = 1 :=
  (analyze_bubble_marking_spec blackUnitImage).2.2.2.1 (by decide)
    (by decide) (fun _ _ _ _ => rfl)

/-! ### C3 -/

/-- C3: in `process_field_block`, a bubble is selected exactly when its
mark-confidence exceeds 0.6 (its value then appears among the detected
values, and every detected value comes from such a bubble, in bubble order);
the reported field confidence is the arithmetic mean of the bubble
confidences (0 when the field has no bubbles); and the multi-mark flag is
set exactly when more than one bubble is selected and the field is not
declared multiple-choice. -/
theorem field_block_response_spec (image : ImageGray) (fb : FieldBlock)
    (tpl : OmrTemplate) :
    ((field_block_response image fb tpl).detected_values =
      (fb.bubbles.filter fun b =>
        decide ((0.6 : ℚ) < bubble_confidence image fb b tpl)).map
        BubbleLocation.value) ∧
    (∀ b ∈ fb.bubbles, (0.6 : ℚ) < bubble_confidence image fb b tpl →
      b.value ∈ (field_block_response image fb tpl).detected_values) ∧
    (∀ v ∈ (field_block_response image fb tpl).detected_values,
      ∃ b ∈ fb.bubbles, b.value = v ∧
        (0.6 : ℚ) < bubble_confidence image fb b tpl) ∧
    (fb.bubbles = [] → (field_block_response image fb tpl).confidence = 0) ∧
    (fb.bubbles ≠ [] → (field_block_response image fb tpl).confidence =
      (fb.bubbles.map fun b => bubble_confidence image fb b tpl).sum /
        (fb.bubbles.length : ℚ)) ∧
    ((field_block_response image fb tpl).is_multi_marked = true ↔
      (1 < (field_block_response image fb tpl).detected_values.length ∧
        tpl.is_multi_choice_field fb.field_label = false)) := by
  refine ⟨rfl, ?_, ?_, ?_, ?_, ?_⟩
  · intro b hb hconf
    simp only [field_block_response, List.mem_map, List.mem_filter]
    exact ⟨b, ⟨hb, by simpa using hconf⟩, rfl⟩
  · intro v hv
    simp only [field_block_response, List.mem_map, List.mem_filter] at hv
    obtain ⟨b, ⟨hb, hconf⟩, rfl⟩ := hv
    exact ⟨b, hb, rfl, by simpa using hconf⟩
  · intro h
    simp [field_block_response, h]
  · intro h
    have hmap : (fb.bubbles.map fun b =>
        bubble_confidence image fb b tpl).isEmpty = false := by
      cases hb : fb.bubbles with
      | nil => exact absurd hb h
      | cons a t => simp [hb]
    simp only [field_block_response, hmap, Bool.false_eq_true, if_false,
      List.length_map]
  · cases hm : tpl.is_multi_choice_field fb.field_label with
    | true => simp [field_block_response, hm]
    | false => simp [field_block_response, hm]

/-- A field block with no bubbles, used as a witness input. -/
def emptyFieldBlock : FieldBlock :=
  { field_label := "Q1", field_type := FieldType.SingleChoice,
    origin := (0, 0), bubbles := [], labels := [] }

/-- A minimal template containing only `emptyFieldBlock`. -/
def sampleTemplate : OmrTemplate :=
  { bubble_dimensions := { width := 10, height := 10 },
    page_dimensions := (100, 100),
    field_blocks := [emptyFieldBlock],
    empty_value := "" }

/-- C3 witness: a field block without bubbles reports confidence 0. -/
theorem field_block_response_spec_witness :
    (field_block_response blackUnitImage emptyFieldBlock sampleTemplate).confidence
      = 0 := by
  have h := (field_block_response_spec blackUnitImage emptyFieldBlock
    sampleTemplate).2.2.2.1
  rw [h]
  simp [emptyFieldBlock]

/-! ### C10 -/

/-- Flattening a map of singletons is a map. -/
theorem flatten_map_singleton {α β : Type} (l : List α) (f : α → β) :
    (l.map fun a => [f a]).flatten = l.map f := by
  induction l with
  | nil => rfl
  | cons a t ih => simp [ih]

/-- C10: template-guided detection returns exactly one response per field
block, each carrying its block's label, in the order the blocks appear in the
template (the source's parallel iterator collects in input order, which this
sequential map reproduces). -/
theorem detect_bubbles_with_template_per_block (image : ImageGray)
    (tpl : OmrTemplate) :
    (detect_bubbles_with_template image tpl).length =
      tpl.field_blocks.length ∧
    (∀ i : ℕ,
      ((detect_bubbles_with_template image tpl)[i]?).map
          BubbleResponse.field_label =
        (tpl.field_blocks[i]?).map FieldBlock.field_label) := by
  have hmap : detect_bubbles_with_template image tpl =
      tpl.field_blocks.map fun fb => field_block_response image fb tpl := by
    unfold detect_bubbles_with_template process_field_block
    exact flatten_map_singleton _ _
  constructor
  · rw [hmap, List.length_map]
  · intro i
    rw [hmap, List.getElem?_map]
    cases tpl.field_blocks[i]? with
    | none => rfl
    | some fb => rfl

/-! ### C9 -/

/-- The clamped x start coordinate computed by `extract_bubble_region`. -/
def bubble_start_x (image : ImageGray) (field_block : FieldBlock)
    (bubble : BubbleLocation) (template : OmrTemplate) : ℕ :=
  min (field_block.origin.1 + bubble.position.1)
    (image.width - template.bubble_dimensions.width)

/-- The clamped y start coordinate computed by `extract_bubble_region`. -/
def bubble_start_y (image : ImageGray) (field_block : FieldBlock)
    (bubble : BubbleLocation) (template : OmrTemplate) : ℕ :=
  min (field_block.origin.2 + bubble.position.2)
    (image.height - template.bubble_dimensions.height)

/-- The clamped x end coordinate computed by `extract_bubble_region`. -/
def bubble_end_x (image : ImageGray) (field_block : FieldBlock)
    (bubble : BubbleLocation) (template : OmrTemplate) : ℕ :=
  min (bubble_start_x image field_block bubble template +
    template.bubble_dimensions.width) image.width

/-- The clamped y end coordinate computed by `extract_bubble_region`. -/
def bubble_end_y (image : ImageGray) (field_block : FieldBlock)
    (bubble : BubbleLocation) (template : OmrTemplate) : ℕ :=
  min (bubble_start_y image field_block bubble template +
    template.bubble_dimensions.height) image.height

/-- C9: the extraction rectangle of a bubble is always clamped inside the
image: the start coordinate never exceeds the saturating difference
`image_size − bubble_size` (and is 0 when the image is smaller than a
bubble), it equals the absolute bubble position whenever that position
already fits, the end coordinate never exceeds the image bound, the start
never exceeds the end (so the `u32` subtractions producing the region's
dimensions cannot underflow and the extraction cannot panic), and the
region's dimensions never exceed the image's. -/
theorem extract_bubble_region_safe (image : ImageGray) (fb : FieldBlock)
    (bubble : BubbleLocation) (tpl : OmrTemplate) :
    (bubble_start_x image fb bubble tpl ≤
      image.width - tpl.bubble_dimensions.width) ∧
    (bubble_start_y image fb bubble tpl ≤
      image.height - tpl.bubble_dimensions.height) ∧
    (image.width ≤ tpl.bubble_dimensions.width →
      bubble_start_x image fb bubble tpl = 0) ∧
    (fb.origin.1 + bubble.position.1 ≤
        image.width - tpl.bubble_dimensions.width →
      bubble_start_x image fb bubble tpl = fb.origin.1 + bubble.position.1) ∧
    (bubble_end_x image fb bubble tpl ≤ image.width ∧
      bubble_end_y image fb bubble tpl ≤ image.height) ∧
    (bubble_start_x image fb bubble tpl ≤ bubble_end_x image fb bubble tpl ∧
      bubble_start_y image fb bubble tpl ≤ bubble_end_y image fb bubble tpl) ∧
    ((extract_bubble_region image fb bubble tpl).width =
      bubble_end_x image fb bubble tpl - bubble_start_x image fb bubble tpl) ∧
    ((extract_bubble_region image fb bubble tpl).height =
      bubble_end_y image fb bubble tpl - bubble_start_y image fb bubble tpl) ∧
    ((extract_bubble_region image fb bubble tpl).width ≤ image.width ∧
      (extract_bubble_region image fb bubble tpl).height ≤ image.height) := by
  refine ⟨min_le_right _ _, min_le_right _ _, ?_, ?_, ⟨min_le_right _ _,
    min_le_right _ _⟩, ⟨?_, ?_⟩, rfl, rfl, ⟨?_, ?_⟩⟩
  · intro h
    unfold bubble_start_x
    have : image.width - tpl.bubble_dimensions.width = 0 := Nat.sub_eq_zero_of_le h
    omega
  · intro h
    exact min_eq_left h
  · exact le_min (Nat.le_add_right _ _)
      (le_trans (min_le_right _ _) (Nat.sub_le _ _))
  · exact le_min (Nat.le_add_right _ _)
      (le_trans (min_le_right _ _) (Nat.sub_le _ _))
  · exact le_trans (Nat.sub_le _ _) (min_le_right _ _)
  · exact le_trans (Nat.sub_le _ _) (min_le_right _ _)

/-- A bubble at offset (5, 5), used as a witness input. -/
def sampleBubble : BubbleLocation := { position := (5, 5), value := "A" }

/-- C9 witness: on the 1×1 image with 10×10 template bubbles, the start
coordinate saturates to 0 and the extracted region is no wider than the
image. -/
theorem extract_bubble_region_safe_witness :
    blackUnitImage.width ≤ sampleTemplate.bubble_dimensions.width ∧
    bubble_start_x blackUnitImage emptyFieldBlock sampleBubble sampleTemplate = 0 ∧
    (extract_bubble_region blackUnitImage emptyFieldBlock sampleBubble
      sampleTemplate).width ≤ blackUnitImage.width :=
  ⟨by decide,
    (extract_bubble_region_safe blackUnitImage emptyFieldBlock sampleBubble
      sampleTemplate).2.2.1 (by decide),
    (extract_bubble_region_safe blackUnitImage emptyFieldBlock sampleBubble
      sampleTemplate).2.2.2.2.2.2.2.2.1⟩

/-! ### C7 -/

/-- A connected component accumulated from exactly 20 pixels along a
diagonal, so its bounding box is 19×19 — inside the dimension bounds. -/
def twentyPixelRegion : BubbleRegion :=
  (List.range 20).foldl (fun r i => r.add_pixel i i) BubbleRegion.new

/-- C7 counterexample: this component has pixel count exactly 20 and both
bounding-box dimensions strictly between 5 and 100, so the claimed inclusive
bound `20 ≤ pixelCount` would keep it, yet `is_likely_bubble` discards it:
the source's area test is strict (`area > 20 && area < 2000`). -/
theorem is_likely_bubble_inclusive_counterexample :
    twentyPixelRegion.pixels.length = 20 ∧
    5 < twentyPixelRegion.max_x - twentyPixelRegion.min_x ∧
    twentyPixelRegion.max_x - twentyPixelRegion.min_x < 100 ∧
    5 < twentyPixelRegion.max_y - twentyPixelRegion.min_y ∧
    twentyPixelRegion.max_y - twentyPixelRegion.min_y < 100 ∧
    twentyPixelRegion.is_likely_bubble = false := by
  decide

/-- C7 amended: a component is kept as a likely bubble exactly when its pixel
count satisfies the strict bounds `20 < pixelCount < 2000` and both
bounding-box dimensions satisfy `5 < dimension < 100`; `find_bubble_regions`
keeps exactly the components passing this test. -/
theorem is_likely_bubble_strict_bounds (r : BubbleRegion) :
    (r.is_likely_bubble = true ↔
      (20 < r.pixels.length ∧ r.pixels.length < 2000 ∧
        5 < r.max_x - r.min_x ∧ r.max_x - r.min_x < 100 ∧
        5 < r.max_y - r.min_y ∧ r.max_y - r.min_y < 100)) ∧
    (∀ regions : List BubbleRegion,
      r ∈ filter_likely_bubbles regions ↔
        r ∈ regions ∧ r.is_likely_bubble = true) := by
  constructor
  · simp only [BubbleRegion.is_likely_bubble, Bool.and_eq_true,
      decide_eq_true_eq]
    tauto
  · intro regions
    simp [filter_likely_bubbles, List.mem_filter]

/-! ### C5 -/

/-- C5 (code bug): contrary to the failure-isolation contract, a single
file's processing failure aborts the whole batch: `OmrConfig::execute`
collects the parallel per-file `Result`s with `collect::<Result<Vec<_>>>()?`,
so the first error is returned from `execute` itself; the successful files'
results are discarded and the aggregate `errors` list (which is always empty
on the success path) never receives a per-file error.  Here a batch of one
good file and one unreadable file evaluates to the bare error, not to an
`OmrResult` carrying the good file and the error. -/
theorem execute_core_aborts_on_file_error :
    execute_core [Except.ok emptyProcessedFile,
        Except.error "Failed to load image: bad.png"] =
      Except.error "Failed to load image: bad.png" := rfl

/-! ### C8 -/

/-- Every entry of the pixel list is strictly below 256. -/
theorem pixelVals_lt_256 (img : ImageGray) : ∀ v ∈ img.pixelVals, v < 256 :=
  pixelVals_all fun x y _ _ => (img.pix x y).isLt

/-- Counting each possible value of a bounded list over the full range
recovers the list's length. -/
theorem sum_range_count (l : List ℕ) (n : ℕ) (hl : ∀ x ∈ l, x < n) :
    (∑ i ∈ Finset.range n, l.count i) = l.length := by
  induction l with
  | nil => simp
  | cons a t ih =>
      have ha : a < n := hl a (by simp)
      have ht : ∀ x ∈ t, x < n := fun x hx => hl x (by simp [hx])
      calc (∑ i ∈ Finset.range n, (a :: t).count i)
          = ∑ i ∈ Finset.range n, (t.count i + if i = a then 1 else 0) := by
            refine Finset.sum_congr rfl fun i _ => ?_
            by_cases h : i = a <;> simp [List.count_cons, h]
        _ = (∑ i ∈ Finset.range n, t.count i) +
            ∑ i ∈ Finset.range n, (if i = a then 1 else 0) :=
            Finset.sum_add_distrib
        _ = t.length + 1 := by
            rw [ih ht, Finset.sum_ite_eq' (Finset.range n) a fun _ => 1,
              if_pos (Finset.mem_range.mpr ha)]
        _ = (a :: t).length := by simp

/-- The histogram's bins sum to the number of pixels. -/
theorem histogram_total (image : ImageGray) :
    (∑ i ∈ Finset.range 256, histogramOf image i) =
      image.width * image.height := by
  unfold histogramOf
  rw [sum_range_count _ 256 (pixelVals_lt_256 image), pixelVals_length]

/-- The total pixel count of an image, as the rational
`total_pixels` value the Otsu loop divides by. -/
def otsuTotal (image : ImageGray) : ℚ :=
  ((image.width * image.height : ℕ) : ℚ)

/-- First component of the class statistics: the normalised below-threshold
weight. -/
theorem class_stats_fst (histogram : ℕ → ℕ) (t : ℕ) (total : ℚ) :
    (calculate_class_stats histogram t total).1 =
      (∑ i ∈ Finset.range t, (histogram i : ℚ)) / total := rfl

/-- Second component of the class statistics: the normalised complementary
weight. -/
theorem class_stats_snd_fst (histogram : ℕ → ℕ) (t : ℕ) (total : ℚ) :
    (calculate_class_stats histogram t total).2.1 =
      (total - ∑ i ∈ Finset.range t, (histogram i : ℚ)) / total := rfl

/-- The raw below-threshold weight is nonnegative. -/
theorem otsu_w0_nonneg (image : ImageGray) (t : ℕ) :
    (0:ℚ) ≤ ∑ i ∈ Finset.range t, (histogramOf image i : ℚ) :=
  Finset.sum_nonneg fun _ _ => Nat.cast_nonneg _

/-- For thresholds up to 256 the raw below-threshold weight never exceeds the
total pixel count. -/
theorem otsu_w0_le_total (image : ImageGray) (t : ℕ) (ht : t ≤ 256) :
    (∑ i ∈ Finset.range t, (histogramOf image i : ℚ)) ≤ otsuTotal image := by
  have h1 : (∑ i ∈ Finset.range t, histogramOf image i) ≤
      ∑ i ∈ Finset.range 256, histogramOf image i :=
    Finset.sum_le_sum_of_subset (Finset.range_subset.mpr ht)
  rw [histogram_total] at h1
  unfold otsuTotal
  exact_mod_cast h1

/-- The between-class variance of any candidate threshold up to 256 is
nonnegative. -/
theorem otsu_variance_nonneg (image : ImageGray) (t : ℕ) (ht : t ≤ 256) :
    0 ≤ otsu_variance (histogramOf image) (otsuTotal image) t := by
  unfold otsu_variance
  refine mul_nonneg (mul_nonneg ?_ ?_) (sq_nonneg _)
  · rw [class_stats_fst]
    exact div_nonneg (otsu_w0_nonneg image t) (Nat.cast_nonneg _)
  · rw [class_stats_snd_fst]
    exact div_nonneg (sub_nonneg.mpr (otsu_w0_le_total image t ht))
      (Nat.cast_nonneg _)

/-- When either class is empty (the loop's skipped case) the variance
formula evaluates to 0. -/
theorem otsu_variance_zero_of_empty_class (image : ImageGray) (t : ℕ)
    (ht : t ≤ 256)
    (h : ¬(0 < (calculate_class_stats (histogramOf image) t (otsuTotal image)).1 ∧
        0 < (calculate_class_stats (histogramOf image) t (otsuTotal image)).2.1)) :
    otsu_variance (histogramOf image) (otsuTotal image) t = 0 := by
  have h1 : (0:ℚ) ≤ (calculate_class_stats (histogramOf image) t (otsuTotal image)).1 := by
    rw [class_stats_fst]
    exact div_nonneg (otsu_w0_nonneg image t) (Nat.cast_nonneg _)
  have h2 : (0:ℚ) ≤ (calculate_class_stats (histogramOf image) t (otsuTotal image)).2.1 := by
    rw [class_stats_snd_fst]
    exact div_nonneg (sub_nonneg.mpr (otsu_w0_le_total image t ht))
      (Nat.cast_nonneg _)
  simp only [otsu_variance]
  rcases not_and_or.mp h with hc | hc
  · rw [le_antisymm (not_lt.mp hc) h1]
    ring
  · rw [le_antisymm (not_lt.mp hc) h2]
    ring

/-- The variance at threshold 0 is 0 (the below class is empty). -/
theorem otsu_variance_at_zero (image : ImageGray) :
    otsu_variance (histogramOf image) (otsuTotal image) 0 = 0 := by
  simp only [otsu_variance]
  rw [class_stats_fst]
  simp

/-- On nonnegative running maxima the guarded loop step behaves as the pure
first-argmax step: the guard can only veto candidates whose variance is 0,
which can never beat the maximum. -/
theorem otsu_step_eq (image : ImageGray) (s : ℕ × ℚ) (t : ℕ) (ht : t ≤ 256)
    (hs : 0 ≤ s.2) :
    otsu_step (histogramOf image) (otsuTotal image) s t =
      if s.2 < otsu_variance (histogramOf image) (otsuTotal image) t then
        (t, otsu_variance (histogramOf image) (otsuTotal image) t)
      else s := by
  by_cases hg : 0 < (calculate_class_stats (histogramOf image) t (otsuTotal image)).1 ∧
      0 < (calculate_class_stats (histogramOf image) t (otsuTotal image)).2.1
  · simp [otsu_step, otsu_variance, hg]
  · have hz := otsu_variance_zero_of_empty_class image t ht hg
    have hnot : ¬ s.2 < otsu_variance (histogramOf image) (otsuTotal image) t := by
      rw [hz]
      exact not_lt.mpr hs
    rw [if_neg hnot]
    simp [otsu_step, hg]

/-- The state of the Otsu threshold loop after the first `n` candidates. -/
def otsu_fold (image : ImageGray) (n : ℕ) : ℕ × ℚ :=
  (List.range n).foldl (otsu_step (histogramOf image) (otsuTotal image)) (0, 0)

/-- Invariant of the Otsu threshold loop: the running maximum is the variance
of the running best threshold, the best threshold is 0 or among the processed
candidates, no processed candidate's variance exceeds the running maximum,
and the best threshold is the first processed candidate attaining it. -/
theorem otsu_fold_invariant (image : ImageGray) : ∀ n, n ≤ 256 →
    ((otsu_fold image n).2 =
      otsu_variance (histogramOf image) (otsuTotal image) (otsu_fold image n).1) ∧
    ((otsu_fold image n).1 = 0 ∨ (otsu_fold image n).1 < n) ∧
    (∀ t < n, otsu_variance (histogramOf image) (otsuTotal image) t ≤
      (otsu_fold image n).2) ∧
    (∀ t < n, otsu_variance (histogramOf image) (otsuTotal image) t =
      (otsu_fold image n).2 → (otsu_fold image n).1 ≤ t) := by
  intro n
  induction n with
  | zero =>
      intro _
      refine ⟨(otsu_variance_at_zero image).symm, Or.inl rfl, ?_, ?_⟩
      · intro t ht
        exact absurd ht (Nat.not_lt_zero t)
      · intro t ht
        exact absurd ht (Nat.not_lt_zero t)
  | succ n ih =>
      intro hn1
      have hn : n < 256 := hn1
      obtain ⟨hs2, hlt, hmax, hfirst⟩ := ih (le_of_lt hn)
      have hfold : otsu_fold image (n + 1) =
          otsu_step (histogramOf image) (otsuTotal image) (otsu_fold image n) n := by
        unfold otsu_fold
        rw [List.range_succ, List.foldl_append, List.foldl_cons, List.foldl_nil]
      have hsle : (otsu_fold image n).1 ≤ 256 := by
        rcases hlt with h | h <;> omega
      have hs_nonneg : 0 ≤ (otsu_fold image n).2 := by
        rw [hs2]
        exact otsu_variance_nonneg image _ hsle
      rw [hfold, otsu_step_eq image _ n (le_of_lt hn) hs_nonneg]
      by_cases hcmp : (otsu_fold image n).2 <
          otsu_variance (histogramOf image) (otsuTotal image) n
      · rw [if_pos hcmp]
        refine ⟨rfl, Or.inr (Nat.lt_succ_self n), ?_, ?_⟩
        · intro t ht
          rcases lt_or_eq_of_le (Nat.lt_succ_iff.mp ht) with h | h
          · exact le_of_lt (lt_of_le_of_lt (hmax t h) hcmp)
          · subst h
            exact le_refl _
        · intro t ht heq
          rcases lt_or_eq_of_le (Nat.lt_succ_iff.mp ht) with h | h
          · exact absurd heq (ne_of_lt (lt_of_le_of_lt (hmax t h) hcmp))
          · subst h
            exact le_refl _
      · rw [if_neg hcmp]
        have hvn : otsu_variance (histogramOf image) (otsuTotal image) n ≤
            (otsu_fold image n).2 := not_lt.mp hcmp
        refine ⟨hs2, ?_, ?_, ?_⟩
        · rcases hlt with h | h
          · exact Or.inl h
          · exact Or.inr (Nat.lt_succ_of_lt h)
        · intro t ht
          rcases lt_or_eq_of_le (Nat.lt_succ_iff.mp ht) with h | h
          · exact hmax t h
          · subst h
            exact hvn
        · intro t ht heq
          rcases lt_or_eq_of_le (Nat.lt_succ_iff.mp ht) with h | h
          · exact hfirst t h heq
          · subst h
            rcases hlt with h0 | hl
            · rw [h0]
              exact Nat.zero_le _
            · exact le_of_lt hl

/-- C8: the Otsu computation scores every candidate threshold in `[0, 256)`
by the between-class variance `w0·w1·(μ0−μ1)²` from the histogram's class
statistics and returns a threshold below 256 attaining the maximum variance;
among thresholds attaining the maximum, the lowest is returned, so the result
is deterministic. -/
theorem calculate_otsu_threshold_argmax (image : ImageGray) :
    calculate_otsu_threshold image < 256 ∧
    (∀ t < 256,
      otsu_variance (histogramOf image) (otsuTotal image) t ≤
        otsu_variance (histogramOf image) (otsuTotal image)
          (calculate_otsu_threshold image)) ∧
    (∀ t < 256,
      otsu_variance (histogramOf image) (otsuTotal image) t =
        otsu_variance (histogramOf image) (otsuTotal image)
          (calculate_otsu_threshold image) →
      calculate_otsu_threshold image ≤ t) := by
  obtain ⟨hs2, hlt, hmax, hfirst⟩ := otsu_fold_invariant image 256 (le_refl _)
  have hid : calculate_otsu_threshold image = (otsu_fold image 256).1 := rfl
  refine ⟨?_, ?_, ?_⟩
  · rw [hid]
    rcases hlt with h | h
    · rw [h]
      norm_num
    · exact h
  · intro t ht
    rw [hid, ← hs2]
    exact hmax t ht
  · intro t ht heq
    rw [hid] at heq ⊢
    rw [← hs2] at heq
    exact hfirst t ht heq

/-- A 2×1 image with one black and one white pixel. -/
def twoPixelImage : ImageGray :=
  { width := 2, height := 1, pix := fun x _ => if x = 0 then 0 else 255 }

/-- C8 witness: on a concrete two-pixel image the returned threshold is a
valid candidate and its variance dominates that of threshold 0. -/
theorem calculate_otsu_threshold_argmax_witness :
    calculate_otsu_threshold twoPixelImage < 256 ∧
    otsu_variance (histogramOf twoPixelImage) (otsuTotal twoPixelImage) 0 ≤
      otsu_variance (histogramOf twoPixelImage) (otsuTotal twoPixelImage)
        (calculate_otsu_threshold twoPixelImage) :=
  ⟨(calculate_otsu_threshold_argmax twoPixelImage).1,
    (calculate_otsu_threshold_argmax twoPixelImage).2.1 0 (by norm_num)⟩

end Omr
